import Mathlib

/-!
# BerryConnect — verification of the BCP protocol and connectivity arbiter

Shallow embedding of `src/PiZero/bcp_protocol.py` and
`src/PiZero/connectivity_manager.py`. Byte strings are `List Nat` with
entries below 256; multi-byte integer fields are big-endian, mirroring
`struct.pack`/`struct.unpack` with the formats used by the source.
Mutable Python objects become explicit state records threaded through the
operations; nondeterministic inputs (current time, `os.urandom`) become
explicit oracle arguments.
-/

/-- Big-endian 2-byte encoding, as `struct.pack` format `H` produces for
values below 2^16 (`struct.pack` raises on larger values, so theorems carry
the corresponding range hypotheses). -/
def toBytes2 (n : Nat) : List Nat := [n / 256 % 256, n % 256]

/-- Big-endian 4-byte encoding, as `struct.pack` format `I` and
`int.to_bytes(4, 'big')` produce for values below 2^32. -/
def toBytes4 (n : Nat) : List Nat :=
  [n / 16777216 % 256, n / 65536 % 256, n / 256 % 256, n % 256]

/-- Big-endian readback of a byte string, as `struct.unpack` performs. -/
def fromBytesBE (l : List Nat) : Nat := l.foldl (fun a b => a * 256 + b) 0

/-- Error conditions raised by the protocol code (each `raise` site of
`bcp_protocol.py` gets one constructor; `structError` is the
`struct.error` that `struct.unpack` raises on a buffer of the wrong size). -/
inductive BCPError where
  | packetTooShort
  | unsupportedVersion (v : Nat)
  | unknownMessageType (t : Nat)
  | encryptedPacketTooShort
  | keyNotEstablished
  | keypairNotGenerated
  | authenticationFailure
  | structError
  | invalidTelemetryPayload
  | invalidAlertPayload
  | invalidHeartbeatPayload
  | invalidCommandPayload
  | invalidResponsePayload
  | unknownAlertCode (c : Nat)
  | unknownCommandCode (c : Nat)
  | unknownStatusCode (c : Nat)
  | invalidKeyExchangePacket
deriving DecidableEq

/-- The dictionaries returned by `BCPProtocol.decode_packet`, one
constructor per `'type'` value. The alert message is kept as the raw
transmitted bytes (the source decodes them as UTF-8 with
`errors='ignore'`). -/
inductive DecodedMessage where
  | keyExchange (sequence : Nat) (publicKey : List Nat)
  | telemetry (sequence cpu100 ram100 : Nat) (cpuTemp100 battery : Option Nat)
      (uptimeSeconds timestamp : Nat)
  | alert (sequence alertCode timestamp : Nat) (message : List Nat)
  | heartbeat (sequence timestamp status : Nat)
  | command (sequence commandCode commandId : Nat)
  | response (sequence commandId statusCode : Nat) (data : List Nat)
deriving DecidableEq

/-- Mutable state of a `BCPEncryption` object: the derived AES key
(`None` before `derive_shared_key`), whether `generate_keypair` has run
(the private key itself lives in the external crypto library), and the
nonce counter. -/
structure BCPEncryptionState where
  aesKey : Option (List Nat)
  keypairGenerated : Bool
  counter : Nat
deriving DecidableEq

/-- Mutable state of a `BCPProtocol` object. -/
structure BCPProtocolState where
  encryption : BCPEncryptionState
  sequenceNum : Nat
deriving DecidableEq

/-- State of a freshly constructed `BCPProtocol()`. -/
def freshProtocol : BCPProtocolState :=
  { encryption := { aesKey := none, keypairGenerated := false, counter := 0 }
    sequenceNum := 0 }

/-- Modelled from the spec: the 16-byte AES-GCM authentication tag computed
by the external `cryptography` library (not part of this repository). The
spec requires a 128-bit tag over key, nonce, associated data and plaintext
whose verification fails under any tampering; the model tag shifts every
byte by the byte-sums of those four inputs, so any single-byte change to
the plaintext changes every tag byte. -/
def gcmTag (key nonce aad pt : List Nat) : List Nat :=
  (List.range 16).map (fun j => (key.sum + nonce.sum + aad.sum + pt.sum + j) % 256)

/-- Modelled from the spec: `AESGCM.encrypt` of the external library —
output is ciphertext followed by the 16-byte authentication tag. -/
def aesgcmEncrypt (key nonce pt aad : List Nat) : List Nat :=
  pt ++ gcmTag key nonce aad pt

/-- Modelled from the spec: `AESGCM.decrypt` of the external library —
splits off the trailing 16-byte tag, recomputes it over the same key,
nonce and associated data, and fails with the authentication-failure
condition (`InvalidTag`, re-raised by `BCPEncryption.decrypt` as
`ValueError`) on any mismatch. -/
def aesgcmDecrypt (key nonce ct aad : List Nat) : Except BCPError (List Nat) :=
  if ct.length < 16 then .error .authenticationFailure
  else if ct.drop (ct.length - 16) = gcmTag key nonce aad (ct.take (ct.length - 16)) then
    .ok (ct.take (ct.length - 16))
  else .error .authenticationFailure

/-- `BCPEncryption.generate_nonce`: 4 bytes of truncated unix time, 4 bytes
of the incremented counter (wrapped mod 2^32), then `os.urandom(4)`.
`nonceTime` and `rand` are the oracle inputs. -/
def generateNonce (s : BCPEncryptionState) (nonceTime : Nat) (rand : List Nat) :
    List Nat × BCPEncryptionState :=
  let c := (s.counter + 1) % 4294967296
  (toBytes4 nonceTime ++ toBytes4 c ++ rand, { s with counter := c })

/-- `BCPEncryption.encrypt`: fails before touching the counter when no key
has been derived; otherwise draws a fresh nonce and returns
`(nonce, ciphertext‖tag)` with the updated state. -/
def BCPEncryption.encrypt (s : BCPEncryptionState) (payload aad : List Nat)
    (nonceTime : Nat) (rand : List Nat) :
    Except BCPError ((List Nat × List Nat) × BCPEncryptionState) :=
  match s.aesKey with
  | none => .error .keyNotEstablished
  | some key =>
    let nr := generateNonce s nonceTime rand
    .ok ((nr.1, aesgcmEncrypt key nr.1 payload aad), nr.2)

/-- `BCPEncryption.decrypt`: key check, then AEAD open. The body contains
no assignment to `self`, so the state is returned unchanged. -/
def BCPEncryption.decryptSt (s : BCPEncryptionState) (nonce ct aad : List Nat) :
    Except BCPError (List Nat) × BCPEncryptionState :=
  ((match s.aesKey with
    | none => .error .keyNotEstablished
    | some key => aesgcmDecrypt key nonce ct aad), s)

/-- Membership in the `MessageType` enum (`MessageType(packet[1])` raises
`ValueError` otherwise). -/
def validMsgType (t : Nat) : Prop :=
  t = 1 ∨ t = 2 ∨ t = 3 ∨ t = 4 ∨ t = 5 ∨ t = 6

instance (t : Nat) : Decidable (validMsgType t) := by
  unfold validMsgType; infer_instance

/-- Membership in the `AlertCode` enum. -/
def validAlertCode (c : Nat) : Prop :=
  c = 1 ∨ c = 2 ∨ c = 3 ∨ c = 4 ∨ c = 5 ∨ c = 254 ∨ c = 255

instance (c : Nat) : Decidable (validAlertCode c) := by
  unfold validAlertCode; infer_instance

/-- Membership in the `CommandCode` enum. -/
def validCommandCode (c : Nat) : Prop := c = 1 ∨ c = 2 ∨ c = 3

instance (c : Nat) : Decidable (validCommandCode c) := by
  unfold validCommandCode; infer_instance

/-- Membership in the `StatusCode` enum. -/
def validStatusCode (c : Nat) : Prop := c = 0 ∨ c = 1 ∨ c = 2

instance (c : Nat) : Decidable (validStatusCode c) := by
  unfold validStatusCode; infer_instance

/-- `BCPProtocol._encrypt_and_pack`: header `[version, type, seq, 0x04]`
with the pre-increment sequence number, sequence bumped mod 256 before the
encryption call (so a failed encryption still leaves it bumped, as in the
source), then `header ‖ nonce ‖ ciphertext‖tag`. -/
def encryptAndPack (st : BCPProtocolState) (msgType : Nat) (payload : List Nat)
    (nonceTime : Nat) (rand : List Nat) :
    Except BCPError (List Nat) × BCPProtocolState :=
  let header := [1, msgType, st.sequenceNum, 4]
  let st1 := { st with sequenceNum := (st.sequenceNum + 1) % 256 }
  match BCPEncryption.encrypt st1.encryption payload header nonceTime rand with
  | .error e => (.error e, st1)
  | .ok (nct, encSt) => (.ok (header ++ nct.1 ++ nct.2), { st1 with encryption := encSt })

/-- The plaintext payload built by `BCPProtocol.encode_telemetry`:
`struct.pack('>HHHIII', cpu100, ram100, temp100 or 0xFFFF,
battery or 0xFFFF, uptime, now)`. Scaled fixed-point values
(`int(x * 100)`) are taken as inputs, since the ×100 scaling of Python
floats happens before packing. -/
def telemetryPayload (cpu100 ram100 : Nat) (temp100 battery : Option Nat)
    (uptime now : Nat) : List Nat :=
  toBytes2 cpu100 ++ toBytes2 ram100 ++ toBytes2 (temp100.getD 65535) ++
    toBytes4 (battery.getD 65535) ++ toBytes4 uptime ++ toBytes4 now

/-- `BCPProtocol.encode_telemetry`. -/
def encodeTelemetry (st : BCPProtocolState) (cpu100 ram100 : Nat)
    (temp100 battery : Option Nat) (uptime now nonceTime : Nat) (rand : List Nat) :
    Except BCPError (List Nat) × BCPProtocolState :=
  encryptAndPack st 1 (telemetryPayload cpu100 ram100 temp100 battery uptime now)
    nonceTime rand

/-- Payload of `BCPProtocol.encode_alert`: `struct.pack('>BI', code, now)`
followed by the UTF-8 message bytes truncated to 11. -/
def alertPayload (code now : Nat) (msgBytes : List Nat) : List Nat :=
  [code] ++ toBytes4 now ++ msgBytes.take 11

/-- `BCPProtocol.encode_alert`. -/
def encodeAlert (st : BCPProtocolState) (code now : Nat) (msgBytes : List Nat)
    (nonceTime : Nat) (rand : List Nat) :
    Except BCPError (List Nat) × BCPProtocolState :=
  encryptAndPack st 2 (alertPayload code now msgBytes) nonceTime rand

/-- Payload of `BCPProtocol.encode_heartbeat`: `struct.pack('>IB', now, status)`. -/
def heartbeatPayload (now status : Nat) : List Nat := toBytes4 now ++ [status]

/-- `BCPProtocol.encode_heartbeat`. -/
def encodeHeartbeat (st : BCPProtocolState) (now status nonceTime : Nat)
    (rand : List Nat) : Except BCPError (List Nat) × BCPProtocolState :=
  encryptAndPack st 5 (heartbeatPayload now status) nonceTime rand

/-- Payload of `BCPProtocol.encode_command`: `struct.pack('>BI', code, id)`. -/
def commandPayload (code id : Nat) : List Nat := [code] ++ toBytes4 id

/-- `BCPProtocol.encode_command`. -/
def encodeCommand (st : BCPProtocolState) (code id nonceTime : Nat)
    (rand : List Nat) : Except BCPError (List Nat) × BCPProtocolState :=
  encryptAndPack st 3 (commandPayload code id) nonceTime rand

/-- Payload of `BCPProtocol.encode_response`:
`struct.pack('>IB', id, status) + data`. -/
def responsePayload (id status : Nat) (data : List Nat) : List Nat :=
  toBytes4 id ++ [status] ++ data

/-- `BCPProtocol.encode_response`. -/
def encodeResponse (st : BCPProtocolState) (id status : Nat) (data : List Nat)
    (nonceTime : Nat) (rand : List Nat) :
    Except BCPError (List Nat) × BCPProtocolState :=
  encryptAndPack st 4 (responsePayload id status data) nonceTime rand

/-- `BCPProtocol._decode_telemetry`: its own length guard accepts any
payload of at least 16 bytes, but `struct.unpack('>HHHIII', payload[:16])`
demands a buffer of exactly 18 bytes (2+2+2+4+4+4), so the unpack arm is
reachable only if the 16-byte slice had length 18 — which it never does. -/
def decodeTelemetryP (payload : List Nat) (sequence : Nat) :
    Except BCPError DecodedMessage :=
  if payload.length < 16 then .error .invalidTelemetryPayload
  else
    let buf := payload.take 16
    if buf.length = 18 then
      let cpu100 := fromBytesBE (buf.take 2)
      let ram100 := fromBytesBE ((buf.drop 2).take 2)
      let temp100 := fromBytesBE ((buf.drop 4).take 2)
      let battery := fromBytesBE ((buf.drop 6).take 4)
      let uptime := fromBytesBE ((buf.drop 10).take 4)
      let ts := fromBytesBE ((buf.drop 14).take 4)
      .ok (.telemetry sequence cpu100 ram100
        (if temp100 = 65535 then none else some temp100)
        (if battery = 65535 then none else some battery) uptime ts)
    else .error .structError

/-- `BCPProtocol._decode_alert`: `struct.unpack('>BI', payload[:5])`, then
the `AlertCode` enum conversion, then the remaining bytes as message. -/
def decodeAlertP (payload : List Nat) (sequence : Nat) :
    Except BCPError DecodedMessage :=
  if payload.length < 5 then .error .invalidAlertPayload
  else
    let code := payload.getD 0 0
    let ts := fromBytesBE ((payload.drop 1).take 4)
    if validAlertCode code then .ok (.alert sequence code ts (payload.drop 5))
    else .error (.unknownAlertCode code)

/-- `BCPProtocol._decode_heartbeat`. -/
def decodeHeartbeatP (payload : List Nat) (sequence : Nat) :
    Except BCPError DecodedMessage :=
  if payload.length < 5 then .error .invalidHeartbeatPayload
  else .ok (.heartbeat sequence (fromBytesBE (payload.take 4)) (payload.getD 4 0))

/-- `BCPProtocol._decode_command`. -/
def decodeCommandP (payload : List Nat) (sequence : Nat) :
    Except BCPError DecodedMessage :=
  if payload.length < 5 then .error .invalidCommandPayload
  else
    let code := payload.getD 0 0
    let id := fromBytesBE ((payload.drop 1).take 4)
    if validCommandCode code then .ok (.command sequence code id)
    else .error (.unknownCommandCode code)

/-- `BCPProtocol._decode_response`. -/
def decodeResponseP (payload : List Nat) (sequence : Nat) :
    Except BCPError DecodedMessage :=
  if payload.length < 5 then .error .invalidResponsePayload
  else
    let id := fromBytesBE (payload.take 4)
    let status := payload.getD 4 0
    if validStatusCode status then
      .ok (.response sequence id status (payload.drop 5))
    else .error (.unknownStatusCode status)

/-- `BCPProtocol.decode_packet`, with the `BCPProtocol` state threaded
explicitly (the Python method reads `self.encryption` but assigns
nothing). Checks mirror the source order: length ≥ 4, version = 1,
`MessageType` enum membership, the unencrypted key-exchange branch
returning `packet[4:69]`, length ≥ 16, then decrypt with `packet[0:4]` as
associated data and dispatch on the type tag. -/
def decodePacket (st : BCPProtocolState) (packet : List Nat) :
    Except BCPError DecodedMessage × BCPProtocolState :=
  if packet.length < 4 then (.error .packetTooShort, st)
  else
    let version := packet.getD 0 0
    if version ≠ 1 then (.error (.unsupportedVersion version), st)
    else
      let t := packet.getD 1 0
      if validMsgType t then
        let sequence := packet.getD 2 0
        if t = 6 then (.ok (.keyExchange sequence ((packet.drop 4).take 65)), st)
        else if packet.length < 16 then (.error .encryptedPacketTooShort, st)
        else
          let nonce := (packet.drop 4).take 12
          let ct := packet.drop 16
          let aad := packet.take 4
          let rSt := BCPEncryption.decryptSt st.encryption nonce ct aad
          let st' := { st with encryption := rSt.2 }
          match rSt.1 with
          | .error e => (.error e, st')
          | .ok payload =>
            if t = 1 then (decodeTelemetryP payload sequence, st')
            else if t = 2 then (decodeAlertP payload sequence, st')
            else if t = 5 then (decodeHeartbeatP payload sequence, st')
            else if t = 3 then (decodeCommandP payload sequence, st')
            else (decodeResponseP payload sequence, st')
      else (.error (.unknownMessageType t), st)

/-- Modelled from the spec: the ECDH (P-256) shared-secret computation and
HKDF-SHA256 key derivation performed by the external `cryptography`
library inside `derive_shared_key`, represented as a deterministic
16-byte function of the peer public-key bytes. -/
def hkdfSharedKey (peerPub : List Nat) : List Nat :=
  (List.range 16).map (fun j => (peerPub.sum * 31 + j) % 256)

/-- `BCPProtocol.process_key_exchange`: rejects packets shorter than 69
bytes (4 header + 65 key) before anything else, then `derive_shared_key`,
which itself fails if `generate_keypair` has not run. -/
def processKeyExchange (st : BCPProtocolState) (packet : List Nat) :
    Except BCPError BCPProtocolState :=
  if packet.length < 69 then .error .invalidKeyExchangePacket
  else if st.encryption.keypairGenerated then
    .ok { st with encryption :=
      { st.encryption with aesKey := some (hkdfSharedKey ((packet.drop 4).take 65)) } }
  else .error .keypairNotGenerated

/-- A single bit flip: XOR bit `k` of the byte at position `p`. -/
def flipBit (l : List Nat) (p k : Nat) : List Nat :=
  l.set p (2 ^ k ^^^ l.getD p 0)

/-- Sequence counters of `encryptAndPack` iterated `n` times, with an
oracle stream supplying each call's message type, payload, nonce time and
random bytes. -/
def encodeIter (st : BCPProtocolState)
    (args : Nat → Nat × List Nat × Nat × List Nat) : Nat → BCPProtocolState
  | 0 => st
  | n + 1 =>
    let a := args n
    (encryptAndPack (encodeIter st args n) a.1 a.2.1 a.2.2.1 a.2.2.2).2

/-- `generate_nonce` iterated: `(nonceIter s ts rnd n).1` is the
`(n+1)`-st nonce drawn from state `s` with time oracle `ts` and randomness
oracle `rnd`. -/
def nonceIter (s : BCPEncryptionState) (ts : Nat → Nat) (rnd : Nat → List Nat) :
    Nat → List Nat × BCPEncryptionState
  | 0 => generateNonce s (ts 0) (rnd 0)
  | n + 1 => generateNonce (nonceIter s ts rnd n).2 (ts (n + 1)) (rnd (n + 1))

/-! ## Connectivity manager (`connectivity_manager.py`) -/

/-- The `ConnectionMode` enum. -/
inductive ConnectionMode where
  | offline
  | mqtt
  | ble
deriving DecidableEq

/-- `ConnectivityManager.check_mqtt_connectivity`: the sentinel broker
address `"AUTO"` short-circuits to unreachable; otherwise the result of
the bounded TCP probe (`connect_ex == 0`) is the oracle `tcpReachable`
(every exception path also yields `false`, folded into the oracle). -/
def checkMqttConnectivity (broker : String) (tcpReachable : Bool) : Bool :=
  if broker = "AUTO" then false else tcpReachable

/-- `ConnectivityManager.check_connectivity`: MQTT first, BLE scan only on
MQTT failure, else offline. The second component records whether the BLE
probe was performed (in the source, whether `check_ble_connectivity` ran). -/
def checkConnectivity (broker : String) (tcpReachable bleFound : Bool) :
    ConnectionMode × Bool :=
  if checkMqttConnectivity broker tcpReachable then (.mqtt, false)
  else if bleFound then (.ble, true)
  else (.offline, true)

/-- One iteration of `ConnectivityManager._monitor_loop`: given the current
mode and this tick's `check_connectivity()` result, returns the new
current mode and the list of `(old, new)` callback invocations made. -/
def monitorTick (current newMode : ConnectionMode) :
    ConnectionMode × List (ConnectionMode × ConnectionMode) :=
  if newMode ≠ current then (newMode, [(current, newMode)]) else (current, [])

/-- The monitoring loop run over a finite list of tick outcomes, collecting
every callback invocation in order. -/
def monitorRun (current : ConnectionMode) :
    List ConnectionMode → ConnectionMode × List (ConnectionMode × ConnectionMode)
  | [] => (current, [])
  | m :: ms =>
    let step := monitorTick current m
    let rest := monitorRun step.1 ms
    (rest.1, step.2 ++ rest.2)

/-! ## Shared helper definitions and lemmas -/

/-- A protocol state whose session has successfully agreed on `key`
(fresh counters, as right after the handshake). -/
def keyedState (key : List Nat) : BCPProtocolState :=
  { encryption := { aesKey := some key, keypairGenerated := true, counter := 0 }
    sequenceNum := 0 }

lemma gcmTag_length (key nonce aad pt : List Nat) :
    (gcmTag key nonce aad pt).length = 16 := by
  simp [gcmTag]

lemma flipBit_length (l : List Nat) (p k : Nat) :
    (flipBit l p k).length = l.length := by
  simp [flipBit]

lemma sum_set_add (l : List Nat) (i a : Nat) (h : i < l.length) :
    (l.set i a).sum + l.getD i 0 = l.sum + a := by
  induction l generalizing i with
  | nil => simp at h
  | cons x xs ih =>
    cases i with
    | zero => simp [List.sum_cons]; omega
    | succ n =>
      simp only [List.set_cons_succ, List.sum_cons, List.getD_cons_succ]
      have := ih n (by simpa using h)
      omega

lemma getD_set_self (l : List Nat) (i a : Nat) (h : i < l.length) :
    (l.set i a).getD i 0 = a := by
  induction l generalizing i with
  | nil => simp at h
  | cons x xs ih =>
    cases i with
    | zero => rfl
    | succ n => exact ih n (by simpa using h)

lemma set_append_right' (l₁ l₂ : List Nat) (i a : Nat) (h : l₁.length ≤ i) :
    (l₁ ++ l₂).set i a = l₁ ++ l₂.set (i - l₁.length) a := by
  induction l₁ generalizing i with
  | nil => simp
  | cons x xs ih =>
    cases i with
    | zero => simp at h
    | succ n =>
      simp only [List.cons_append, List.set_cons_succ, List.length_cons]
      rw [ih n (by simpa using h)]
      simp [Nat.succ_sub_succ]

lemma set_append_left' (l₁ l₂ : List Nat) (i a : Nat) (h : i < l₁.length) :
    (l₁ ++ l₂).set i a = l₁.set i a ++ l₂ := by
  induction l₁ generalizing i with
  | nil => simp at h
  | cons x xs ih =>
    cases i with
    | zero => rfl
    | succ n =>
      simp only [List.cons_append, List.set_cons_succ]
      rw [ih n (by simpa using h)]

lemma flipBit_append_right (A B : List Nat) (p k : Nat) (h : A.length ≤ p) :
    flipBit (A ++ B) p k = A ++ flipBit B (p - A.length) k := by
  unfold flipBit
  rw [set_append_right' A B p _ h, List.getD_append_right A B 0 p h]

lemma flipBit_append_left (A B : List Nat) (p k : Nat) (h : p < A.length) :
    flipBit (A ++ B) p k = flipBit A p k ++ B := by
  unfold flipBit
  rw [set_append_left' A B p _ h, List.getD_append A B 0 p h]

lemma xor_two_pow_mod_ne (b k : Nat) (hk : k < 8) :
    (2 ^ k ^^^ b) % 256 ≠ b % 256 := by
  intro hEq
  have h256 : (256 : Nat) = 2 ^ 8 := by norm_num
  have h1 : ((2 ^ k ^^^ b) % 2 ^ 8).testBit k = ((b % 2 ^ 8)).testBit k := by
    rw [← h256, hEq]
  rw [Nat.testBit_mod_two_pow, Nat.testBit_mod_two_pow, Nat.testBit_xor,
    Nat.testBit_two_pow_self] at h1
  simp [hk] at h1

lemma xor_two_pow_ne (b k : Nat) (hk : k < 8) : 2 ^ k ^^^ b ≠ b := by
  intro hEq
  exact xor_two_pow_mod_ne b k hk (by rw [hEq])

lemma gcmTag_getD0 (key nonce aad pt : List Nat) :
    (gcmTag key nonce aad pt).getD 0 0 = (key.sum + nonce.sum + aad.sum + pt.sum) % 256 := by
  rfl

lemma gcmTag_ne (key nonce aad p q : List Nat) (h : p.sum % 256 ≠ q.sum % 256) :
    gcmTag key nonce aad p ≠ gcmTag key nonce aad q := by
  intro hEq
  have h0 := congrArg (fun l => l.getD 0 0) hEq
  simp only [gcmTag_getD0] at h0
  exact h (Nat.ModEq.add_left_cancel' (key.sum + nonce.sum + aad.sum) h0)

lemma sum_mod_ne_of_flip (body : List Nat) (i k : Nat) (hi : i < body.length)
    (hk : k < 8) : (flipBit body i k).sum % 256 ≠ body.sum % 256 := by
  unfold flipBit
  intro hEq
  have hset := sum_set_add body i (2 ^ k ^^^ body.getD i 0) hi
  have h1 : (body.set i (2 ^ k ^^^ body.getD i 0)).sum + body.getD i 0 ≡
      body.sum + body.getD i 0 [MOD 256] := Nat.ModEq.add_right _ hEq
  rw [hset] at h1
  have h2 : 2 ^ k ^^^ body.getD i 0 ≡ body.getD i 0 [MOD 256] :=
    Nat.ModEq.add_left_cancel' body.sum h1
  exact xor_two_pow_mod_ne (body.getD i 0) k hk h2

lemma aesgcmDecrypt_flip (key nonce aad body : List Nat) (i k : Nat)
    (hi : i < body.length + 16) (hk : k < 8) :
    aesgcmDecrypt key nonce (flipBit (aesgcmEncrypt key nonce body aad) i k) aad =
      .error .authenticationFailure := by
  unfold aesgcmEncrypt
  by_cases hcase : i < body.length
  · rw [flipBit_append_left _ _ _ _ hcase]
    have hblen : (flipBit body i k).length = body.length := flipBit_length body i k
    have hlen : (flipBit body i k ++ gcmTag key nonce aad body).length = body.length + 16 := by
      simp [flipBit_length, gcmTag_length]
    have hne : gcmTag key nonce aad body ≠ gcmTag key nonce aad (flipBit body i k) :=
      gcmTag_ne key nonce aad body (flipBit body i k)
        (Ne.symm (sum_mod_ne_of_flip body i k hcase hk))
    unfold aesgcmDecrypt
    rw [hlen]
    have hsub : body.length + 16 - 16 = (flipBit body i k).length := by omega
    rw [if_neg (by omega), hsub, List.take_left, List.drop_left, if_neg hne]
  · have hi2 : body.length ≤ i := Nat.le_of_not_lt hcase
    rw [flipBit_append_right _ _ _ _ hi2]
    have htg : (gcmTag key nonce aad body).length = 16 := gcmTag_length key nonce aad body
    have hj : i - body.length < 16 := by omega
    have hlen : (body ++ flipBit (gcmTag key nonce aad body) (i - body.length) k).length =
        body.length + 16 := by
      simp [flipBit_length, htg]
    have hne : flipBit (gcmTag key nonce aad body) (i - body.length) k ≠
        gcmTag key nonce aad body := by
      unfold flipBit
      intro hEq
      have hgd := congrArg (fun l => l.getD (i - body.length) 0) hEq
      simp only at hgd
      rw [getD_set_self _ _ _ (by omega)] at hgd
      exact xor_two_pow_ne _ k hk hgd
    unfold aesgcmDecrypt
    rw [hlen]
    have hsub : body.length + 16 - 16 = body.length := by omega
    rw [if_neg (by omega), hsub, List.take_left, List.drop_left, if_neg hne]

lemma decodePacket_decrypt_error (st : BCPProtocolState) (key : List Nat)
    (mt seq fl : Nat) (nonce ct : List Nat) (e : BCPError)
    (hkD : st.encryption.aesKey = some key)
    (hmt : validMsgType mt) (h6 : mt ≠ 6) (hn : nonce.length = 12)
    (hd : aesgcmDecrypt key nonce ct [1, mt, seq, fl] = .error e) :
    (decodePacket st ([1, mt, seq, fl] ++ (nonce ++ ct))).1 = .error e := by
  have hd4 : ([1, mt, seq, fl] ++ (nonce ++ ct)).drop 4 = nonce ++ ct :=
    List.drop_left' (by simp)
  have ht4 : ([1, mt, seq, fl] ++ (nonce ++ ct)).take 4 = [1, mt, seq, fl] :=
    List.take_left' (by simp)
  have hd16 : ([1, mt, seq, fl] ++ (nonce ++ ct)).drop 16 = ct := by
    rw [show [1, mt, seq, fl] ++ (nonce ++ ct) = ([1, mt, seq, fl] ++ nonce) ++ ct by simp]
    exact List.drop_left' (by simp [hn])
  have hg0 : ([1, mt, seq, fl] ++ (nonce ++ ct)).getD 0 0 = 1 := rfl
  have hg1 : ([1, mt, seq, fl] ++ (nonce ++ ct)).getD 1 0 = mt := rfl
  have hg2 : ([1, mt, seq, fl] ++ (nonce ++ ct)).getD 2 0 = seq := rfl
  have hlen : ([1, mt, seq, fl] ++ (nonce ++ ct)).length = 16 + ct.length := by
    simp [hn]; omega
  unfold decodePacket
  rw [hg0, hg1, hg2, hd4, ht4, hd16, hlen]
  rw [if_neg (by omega), if_neg (by simp), if_pos hmt, if_neg h6, if_neg (by omega)]
  rw [List.take_left' hn]
  simp only [BCPEncryption.decryptSt, hkD, hd]

lemma encryptAndPack_ok (st : BCPProtocolState) (key : List Nat) (mt : Nat)
    (payload : List Nat) (nonceTime : Nat) (rand : List Nat)
    (hk : st.encryption.aesKey = some key) :
    (encryptAndPack st mt payload nonceTime rand).1 =
      .ok ([1, mt, st.sequenceNum, 4] ++
        ((toBytes4 nonceTime ++ toBytes4 ((st.encryption.counter + 1) % 4294967296) ++ rand) ++
          aesgcmEncrypt key
            (toBytes4 nonceTime ++ toBytes4 ((st.encryption.counter + 1) % 4294967296) ++ rand)
            payload [1, mt, st.sequenceNum, 4])) := by
  simp [encryptAndPack, BCPEncryption.encrypt, generateNonce, hk]

/-- C3: flipping any single bit of the ciphertext or tag bytes (positions
16 and beyond) of a frame produced by a keyed session makes `decode_packet`
on a session holding the same key fail with the authentication-failure
condition — never another error kind, and never a plaintext. -/
theorem bitflip_causes_auth_failure
    (stE stD : BCPProtocolState) (key : List Nat) (mt : Nat) (payload : List Nat)
    (nonceTime : Nat) (rand : List Nat) (packet : List Nat) (p k : Nat)
    (hkE : stE.encryption.aesKey = some key)
    (hkD : stD.encryption.aesKey = some key)
    (hseq : stE.sequenceNum < 256)
    (hmt : mt = 1 ∨ mt = 2 ∨ mt = 3 ∨ mt = 4 ∨ mt = 5)
    (hr : rand.length = 4)
    (hpkt : (encryptAndPack stE mt payload nonceTime rand).1 = .ok packet)
    (hp16 : 16 ≤ p) (hplen : p < packet.length) (hk8 : k < 8) :
    (decodePacket stD (flipBit packet p k)).1 = .error .authenticationFailure := by
  rw [encryptAndPack_ok stE key mt payload nonceTime rand hkE] at hpkt
  set N := toBytes4 nonceTime ++ toBytes4 ((stE.encryption.counter + 1) % 4294967296) ++ rand
    with hNdef
  set C := aesgcmEncrypt key N payload [1, mt, stE.sequenceNum, 4] with hCdef
  have hpacket : packet = [1, mt, stE.sequenceNum, 4] ++ (N ++ C) := by
    injection hpkt with h
    exact h.symm
  subst hpacket
  have hN : N.length = 12 := by simp [hNdef, toBytes4, hr]
  have hC : C.length = payload.length + 16 := by simp [hCdef, aesgcmEncrypt, gcmTag_length]
  have hplen2 : p < 16 + (payload.length + 16) := by
    have := hplen
    simp [List.length_append, hN, hC] at this
    omega
  have hflip : flipBit ([1, mt, stE.sequenceNum, 4] ++ (N ++ C)) p k =
      [1, mt, stE.sequenceNum, 4] ++ (N ++ flipBit C (p - 16) k) := by
    rw [show [1, mt, stE.sequenceNum, 4] ++ (N ++ C) =
        ([1, mt, stE.sequenceNum, 4] ++ N) ++ C from (List.append_assoc _ _ _).symm]
    rw [flipBit_append_right _ _ _ _ (by simp [hN]; omega)]
    rw [List.append_assoc]
    have : p - ([1, mt, stE.sequenceNum, 4] ++ N).length = p - 16 := by simp [hN]
    rw [this]
  rw [hflip]
  refine decodePacket_decrypt_error stD key mt stE.sequenceNum 4 N (flipBit C (p - 16) k) _
    hkD ?_ ?_ hN ?_
  · rcases hmt with h | h | h | h | h <;> simp [validMsgType, h]
  · rcases hmt with h | h | h | h | h <;> omega
  · exact aesgcmDecrypt_flip key N [1, mt, stE.sequenceNum, 4] payload (p - 16) k
      (by omega) hk8

/-! ## Per-step lemmas for counters -/

lemma encryptAndPack_snd_seq (st : BCPProtocolState) (mt : Nat) (payload : List Nat)
    (nonceTime : Nat) (rand : List Nat) :
    (encryptAndPack st mt payload nonceTime rand).2.sequenceNum =
      (st.sequenceNum + 1) % 256 := by
  unfold encryptAndPack
  rcases h : BCPEncryption.encrypt
      { st with sequenceNum := (st.sequenceNum + 1) % 256 }.encryption payload
      [1, mt, st.sequenceNum, 4] nonceTime rand with e | v
  · simp [h]
  · simp [h]

lemma encodeIter_seq (st : BCPProtocolState)
    (args : Nat → Nat × List Nat × Nat × List Nat) (n : Nat) :
    (encodeIter st args (n + 1)).sequenceNum = (st.sequenceNum + (n + 1)) % 256 := by
  induction n with
  | zero => simp [encodeIter, encryptAndPack_snd_seq]
  | succ m ih =>
    rw [show m + 1 + 1 = (m + 1) + 1 from rfl]
    unfold encodeIter
    rw [encryptAndPack_snd_seq, ih]
    omega

lemma nonceIter_counter (s : BCPEncryptionState) (ts : Nat → Nat)
    (rnd : Nat → List Nat) (n : Nat) :
    (nonceIter s ts rnd n).2.counter = (s.counter + (n + 1)) % 4294967296 := by
  induction n with
  | zero => simp [nonceIter, generateNonce]
  | succ m ih =>
    unfold nonceIter
    simp [generateNonce, ih]
    omega

lemma nonceIter_fst (s : BCPEncryptionState) (ts : Nat → Nat)
    (rnd : Nat → List Nat) (n : Nat) :
    (nonceIter s ts rnd n).1 =
      toBytes4 (ts n) ++ toBytes4 ((s.counter + (n + 1)) % 4294967296) ++ rnd n := by
  cases n with
  | zero => simp [nonceIter, generateNonce]
  | succ m =>
    unfold nonceIter
    have hc : ((nonceIter s ts rnd m).2.counter + 1) % 4294967296 =
        (s.counter + (m + 1 + 1)) % 4294967296 := by
      rw [nonceIter_counter]
      omega
    simp only [generateNonce, hc]

lemma toBytes4_inj (a b : Nat) (ha : a < 4294967296) (hb : b < 4294967296)
    (h : toBytes4 a = toBytes4 b) : a = b := by
  simp [toBytes4] at h
  omega

/-! ## Claim theorems -/

/-- C4: per monitoring-loop tick, the mode-change handler is invoked
exactly once (with old and new state) when the evaluated mode differs from
the current state and zero times when it is unchanged; any number of
consecutive ticks yielding the unchanged state produce no handler calls. -/
theorem monitor_mode_change_once (c m : ConnectionMode) (n : Nat) :
    ((monitorTick c m).2.length = if m = c then 0 else 1) ∧
    (m ≠ c → (monitorTick c m).1 = m ∧ (monitorTick c m).2 = [(c, m)]) ∧
    (m = c → (monitorTick c m).1 = c ∧ (monitorTick c m).2 = []) ∧
    (monitorRun c (List.replicate n c)).2 = [] := by
  refine ⟨?_, ?_, ?_, ?_⟩
  · by_cases h : m = c <;> simp [monitorTick, h]
  · intro h
    simp [monitorTick, h]
  · intro h
    simp [monitorTick, h]
  · induction n with
    | zero => simp [monitorRun]
    | succ k ih => simp [List.replicate_succ, monitorRun, monitorTick, ih]

/-- Witness for C4 at a concrete transition and three unchanged ticks. -/
theorem monitor_mode_change_once_witness :
    (monitorTick ConnectionMode.offline ConnectionMode.mqtt).2 =
      [(ConnectionMode.offline, ConnectionMode.mqtt)] ∧
    (monitorRun ConnectionMode.offline
      (List.replicate 3 ConnectionMode.offline)).2 = [] :=
  ⟨((monitor_mode_change_once .offline .mqtt 3).2.1 (by decide)).2,
   (monitor_mode_change_once .offline .mqtt 3).2.2.2⟩

/-- C5: `check_connectivity` returns MQTT whenever the MQTT probe succeeds
(and then the BLE probe is not performed), else BLE when the BLE scan
succeeds, else offline; and the sentinel broker address `"AUTO"` always
makes the MQTT probe report unreachable regardless of actual network
state. -/
theorem evaluate_priority (broker : String) (tcpReachable bleFound : Bool) :
    (checkMqttConnectivity broker tcpReachable = true →
      checkConnectivity broker tcpReachable bleFound = (.mqtt, false)) ∧
    (checkMqttConnectivity broker tcpReachable = false → bleFound = true →
      checkConnectivity broker tcpReachable bleFound = (.ble, true)) ∧
    (checkMqttConnectivity broker tcpReachable = false → bleFound = false →
      checkConnectivity broker tcpReachable bleFound = (.offline, true)) ∧
    checkMqttConnectivity "AUTO" tcpReachable = false := by
  refine ⟨?_, ?_, ?_, by simp [checkMqttConnectivity]⟩
  · intro h
    simp [checkConnectivity, h]
  · intro h hb
    simp [checkConnectivity, h, hb]
  · intro h hb
    simp [checkConnectivity, h, hb]

/-- Witness for C5 at concrete probe outcomes. -/
theorem evaluate_priority_witness :
    checkConnectivity "mqtt.local" true false = (.mqtt, false) ∧
    checkMqttConnectivity "AUTO" true = false :=
  ⟨(evaluate_priority "mqtt.local" true false).1 (by decide),
   (evaluate_priority "AUTO" true false).2.2.2⟩

/-- C8 counterexample: a 1-byte frame whose version byte is 2 fails with
the packet-too-short condition, not with unsupported-version, because the
length check precedes the version check. -/
theorem short_bad_version_packet_too_short :
    (decodePacket freshProtocol [2]).1 = .error .packetTooShort ∧
    (decodePacket freshProtocol [2]).1 ≠ .error (.unsupportedVersion 2) := by
  refine ⟨rfl, ?_⟩
  intro h
  rw [show (decodePacket freshProtocol [2]).1 = .error .packetTooShort from rfl] at h
  simp at h

/-- C8 (amended): every frame of length at least 4 whose version byte is
not 1 fails with the unsupported-version condition, regardless of every
other field. -/
theorem unsupported_version_error (st : BCPProtocolState) (packet : List Nat)
    (hlen : 4 ≤ packet.length) (hv : packet.getD 0 0 ≠ 1) :
    (decodePacket st packet).1 = .error (.unsupportedVersion (packet.getD 0 0)) := by
  simp only [decodePacket]
  rw [if_neg (by omega), if_pos hv]

/-- Witness for C8 at a concrete 4-byte frame with version byte 7. -/
theorem unsupported_version_error_witness :
    (decodePacket freshProtocol [7, 1, 0, 0]).1 = .error (.unsupportedVersion 7) :=
  unsupported_version_error freshProtocol [7, 1, 0, 0] (by decide) (by decide)

/-- C9: `decode_packet` never mutates the session's own state — sequence
counter, nonce counter and derived key are identical before and after the
call, whether it succeeds or fails. -/
theorem decode_preserves_state (st : BCPProtocolState) (packet : List Nat) :
    (decodePacket st packet).2 = st := by
  unfold decodePacket
  repeat' (first | rfl | split | dsimp only)

/-- C10: frames of length at least 4 with version 1 and type 0x06 decode
successfully with no further length validation, returning whatever bytes
lie in positions 4..68 (fewer than 65 bytes when the frame is shorter than
69), while `process_key_exchange` rejects every frame shorter than 69
bytes. -/
theorem keyexchange_decode_no_length_check (st : BCPProtocolState)
    (packet : List Nat) (hlen : 4 ≤ packet.length)
    (hv : packet.getD 0 0 = 1) (ht : packet.getD 1 0 = 6) :
    (decodePacket st packet).1 =
      .ok (.keyExchange (packet.getD 2 0) ((packet.drop 4).take 65)) ∧
    ((packet.drop 4).take 65).length = min 65 (packet.length - 4) ∧
    (packet.length < 69 →
      processKeyExchange st packet = .error .invalidKeyExchangePacket) := by
  refine ⟨?_, ?_, ?_⟩
  · simp only [decodePacket]
    rw [hv, ht]
    rw [if_neg (by omega), if_neg (by simp), if_pos (by decide), if_pos rfl]
  · simp [List.length_take, List.length_drop]
  · intro h
    simp [processKeyExchange, h]

/-- Witness for C10 at a concrete 5-byte key-exchange frame. -/
theorem keyexchange_decode_no_length_check_witness :
    (decodePacket freshProtocol [1, 6, 9, 0, 42]).1 = .ok (.keyExchange 9 [42]) ∧
    processKeyExchange freshProtocol [1, 6, 9, 0, 42] =
      .error .invalidKeyExchangePacket := by
  have h := keyexchange_decode_no_length_check freshProtocol [1, 6, 9, 0, 42]
    (by decide) (by decide) (by decide)
  exact ⟨h.1, h.2.2 (by decide)⟩

/-- A concrete frame produced by a keyed session, for the C3 witness. -/
def c3Packet : List Nat :=
  match (encryptAndPack (keyedState [1, 2, 3]) 2 [170] 5 [4, 3, 2, 1]).1 with
  | .ok p => p
  | .error _ => []

/-- Witness for C3: a concrete bit flip inside the ciphertext of a
concrete frame. -/
theorem bitflip_causes_auth_failure_witness :
    (decodePacket (keyedState [1, 2, 3]) (flipBit c3Packet 16 0)).1 =
      .error .authenticationFailure :=
  bitflip_causes_auth_failure (keyedState [1, 2, 3]) (keyedState [1, 2, 3])
    [1, 2, 3] 2 [170] 5 [4, 3, 2, 1] c3Packet 16 0 rfl rfl (by decide)
    (by decide) rfl rfl (by decide) (by decide) (by decide)

/-- C1 (settling the round-trip claim against the code): the repository's
own self-test telemetry round trip — encode with a keyed session, decode
with a session holding the same key — ends in a `struct.error`, because
`_decode_telemetry` unpacks the 18-byte format `>HHHIII` from a 16-byte
slice; moreover every call to `_decode_telemetry` fails, so no Telemetry
frame ever decodes back to its message. -/
theorem telemetry_roundtrip_struct_error :
    ((encodeTelemetry (keyedState [1, 2, 3]) 4520 6280 (some 5230) (some 85)
        86400 1700000000 1700000000 [7, 7, 7, 7]).1.map
      (fun pkt => (decodePacket (keyedState [1, 2, 3]) pkt).1)) =
      .ok (.error .structError) ∧
    ∀ payload seq, decodeTelemetryP payload seq = .error .invalidTelemetryPayload ∨
      decodeTelemetryP payload seq = .error .structError := by
  refine ⟨rfl, ?_⟩
  intro payload seq
  unfold decodeTelemetryP
  by_cases h : payload.length < 16
  · left
    rw [if_pos h]
  · right
    rw [if_neg h, if_neg (by simp [List.length_take]; omega)]

/-- C2 counterexample: at a concrete valid telemetry input the payload is
18 bytes long, not 16 as the claim states. -/
theorem telemetry_payload_not_16_bytes :
    (telemetryPayload 4520 6280 (some 5230) (some 85) 86400 1700000000).length = 18 ∧
    (telemetryPayload 4520 6280 (some 5230) (some 85) 86400 1700000000).length ≠ 16 := by
  refine ⟨rfl, by decide⟩

/-- C2 (amended): the plaintext Telemetry payload is laid out big-endian as
cpu×100 (u16), ram×100 (u16), temp×100 or 0xFFFF (u16), battery or 0xFFFF
(u32), uptime (u32), unix timestamp (u32) — 18 bytes total, not 16. -/
theorem telemetry_payload_layout (cpu100 ram100 : Nat) (temp100 battery : Option Nat)
    (uptime now : Nat)
    (hcpu : cpu100 < 65536) (hram : ram100 < 65536)
    (htemp : temp100.getD 65535 < 65536) (hbat : battery.getD 65535 < 4294967296)
    (hup : uptime < 4294967296) (hnow : now < 4294967296) :
    (telemetryPayload cpu100 ram100 temp100 battery uptime now).length = 18 ∧
    fromBytesBE ((telemetryPayload cpu100 ram100 temp100 battery uptime now).take 2) =
      cpu100 ∧
    fromBytesBE (((telemetryPayload cpu100 ram100 temp100 battery uptime now).drop 2).take 2) =
      ram100 ∧
    fromBytesBE (((telemetryPayload cpu100 ram100 temp100 battery uptime now).drop 4).take 2) =
      temp100.getD 65535 ∧
    fromBytesBE (((telemetryPayload cpu100 ram100 temp100 battery uptime now).drop 6).take 4) =
      battery.getD 65535 ∧
    fromBytesBE (((telemetryPayload cpu100 ram100 temp100 battery uptime now).drop 10).take 4) =
      uptime ∧
    fromBytesBE (((telemetryPayload cpu100 ram100 temp100 battery uptime now).drop 14).take 4) =
      now := by
  refine ⟨?_, ?_, ?_, ?_, ?_, ?_, ?_⟩ <;>
    simp [telemetryPayload, toBytes2, toBytes4, fromBytesBE] <;> omega

/-- Witness for C2's amended layout theorem at a concrete input. -/
theorem telemetry_payload_layout_witness :
    (telemetryPayload 4520 6280 none none 86400 1700000000).length = 18 ∧
    fromBytesBE ((telemetryPayload 4520 6280 none none 86400 1700000000).take 2) = 4520 :=
  ⟨(telemetry_payload_layout 4520 6280 none none 86400 1700000000 (by decide)
      (by decide) (by decide) (by decide) (by decide) (by decide)).1,
   (telemetry_payload_layout 4520 6280 none none 86400 1700000000 (by decide)
      (by decide) (by decide) (by decide) (by decide) (by decide)).2.1⟩

/-- C6: every successful encode on a keyed session emits the pre-increment
sequence number in frame byte 2 and advances the local sequence counter by
exactly one mod 256; iterating 256 encodes returns the counter to its
initial value. -/
theorem encode_sequence_increment (st : BCPProtocolState) (key : List Nat)
    (mt : Nat) (payload : List Nat) (nonceTime : Nat) (rand : List Nat)
    (args : Nat → Nat × List Nat × Nat × List Nat)
    (hk : st.encryption.aesKey = some key) (hs : st.sequenceNum < 256) :
    ((encryptAndPack st mt payload nonceTime rand).1.map (fun pkt => pkt.getD 2 0) =
      .ok st.sequenceNum) ∧
    (encryptAndPack st mt payload nonceTime rand).2.sequenceNum =
      (st.sequenceNum + 1) % 256 ∧
    (encodeIter st args 256).sequenceNum = st.sequenceNum := by
  refine ⟨?_, encryptAndPack_snd_seq st mt payload nonceTime rand, ?_⟩
  · rw [encryptAndPack_ok st key mt payload nonceTime rand hk]
    rfl
  · rw [show (256 : Nat) = 255 + 1 from rfl, encodeIter_seq st args 255]
    omega

/-- Witness for C6 at a concrete keyed session. -/
theorem encode_sequence_increment_witness :
    ((encryptAndPack (keyedState [5]) 2 [9] 0 [1, 2, 3, 4]).1.map
      (fun pkt => pkt.getD 2 0) = .ok 0) ∧
    (encodeIter (keyedState [5]) (fun _ => (2, [9], 0, [1, 2, 3, 4])) 256).sequenceNum = 0 :=
  ⟨(encode_sequence_increment (keyedState [5]) [5] 2 [9] 0 [1, 2, 3, 4]
      (fun _ => (2, [9], 0, [1, 2, 3, 4])) rfl (by decide)).1,
   (encode_sequence_increment (keyedState [5]) [5] 2 [9] 0 [1, 2, 3, 4]
      (fun _ => (2, [9], 0, [1, 2, 3, 4])) rfl (by decide)).2.2⟩

/-- C7: under an established key, any two distinct nonce draws among the
first 2^32 are distinct, for every value of the timestamp and random
oracle streams — distinctness comes from the 4-byte counter component
alone. -/
theorem nonce_uniqueness (s : BCPEncryptionState) (key : List Nat)
    (ts : Nat → Nat) (rnd : Nat → List Nat) (i j : Nat)
    (hkey : s.aesKey = some key)
    (hi : i < 4294967296) (hj : j < 4294967296) (hne : i ≠ j) :
    (nonceIter s ts rnd i).1 ≠ (nonceIter s ts rnd j).1 := by
  intro hEq
  rw [nonceIter_fst, nonceIter_fst] at hEq
  have hmid :
      (((toBytes4 (ts i) ++ toBytes4 ((s.counter + (i + 1)) % 4294967296) ++
        rnd i)).drop 4).take 4 =
      (((toBytes4 (ts j) ++ toBytes4 ((s.counter + (j + 1)) % 4294967296) ++
        rnd j)).drop 4).take 4 := by
    rw [hEq]
  have hsl : ∀ (A B r : List Nat), A.length = 4 → B.length = 4 →
      (((A ++ B) ++ r).drop 4).take 4 = B := by
    intro A B r hA hB
    rw [List.append_assoc, List.drop_left' hA, List.take_left' hB]
  rw [hsl _ _ _ (by simp [toBytes4]) (by simp [toBytes4]),
    hsl _ _ _ (by simp [toBytes4]) (by simp [toBytes4])] at hmid
  have := toBytes4_inj _ _ (Nat.mod_lt _ (by norm_num)) (Nat.mod_lt _ (by norm_num)) hmid
  omega

/-- Witness for C7 at two concrete draws from a keyed session. -/
theorem nonce_uniqueness_witness :
    (nonceIter { aesKey := some [1], keypairGenerated := true, counter := 0 }
      (fun _ => 0) (fun _ => [0, 0, 0, 0]) 0).1 ≠
    (nonceIter { aesKey := some [1], keypairGenerated := true, counter := 0 }
      (fun _ => 0) (fun _ => [0, 0, 0, 0]) 1).1 :=
  nonce_uniqueness { aesKey := some [1], keypairGenerated := true, counter := 0 }
    [1] (fun _ => 0) (fun _ => [0, 0, 0, 0]) 0 1 rfl (by decide) (by decide)
    (by decide)
